import Mathlib

/-!
Shallow embedding of the claims-risk-analyzer core (`helpers.py`).

Tables (`pandas.DataFrame`) are modelled as a column-name list plus a list of
rows, each row a list of cells.  A cell is a rational number, a text string, or
missing (`NaN`).  Floating-point values are modelled as rationals; `NaN` is
modelled as `Option.none` after coercion, with the `o*` helpers reproducing
IEEE `NaN` propagation for the operations the code performs.
-/

namespace ClaimsRisk

attribute [local semireducible] Rat.add Rat.sub Rat.mul Rat.inv Rat.ofScientific

/-- A single cell of a record table: numeric, text, or missing (`NaN`). -/
inductive Cell where
  | num (q : ℚ)
  | text (s : String)
  | missing
deriving DecidableEq

/-- A record table: ordered column names plus ordered rows of cells
(`pandas.DataFrame`). -/
structure DF where
  cols : List String
  rows : List (List Cell)
deriving DecidableEq

/-- Rectangularity: every row has exactly one cell per column (always true of a
`pandas.DataFrame`). -/
def DF.WF (df : DF) : Prop := ∀ r ∈ df.rows, r.length = df.cols.length

instance (df : DF) : Decidable df.WF := List.decidableBAll _ _

/-- Numeric value of a list of decimal digit characters (validity checked by
the caller). -/
def natOfDigits (cs : List Char) : ℕ := cs.foldl (fun a c => 10 * a + (c.toNat - 48)) 0

/-- Parse an unsigned decimal literal (`"12"`, `"12.5"`, `".5"`, `"5."`),
as accepted by `pandas.to_numeric`. -/
def parseUnsignedDec (cs : List Char) : Option ℚ :=
  let ip := cs.takeWhile Char.isDigit
  let rest := cs.dropWhile Char.isDigit
  match rest with
  | [] => if ip.isEmpty then none else some (natOfDigits ip)
  | '.' :: fr =>
      if fr.all Char.isDigit && !(ip.isEmpty && fr.isEmpty) then
        some ((natOfDigits ip : ℚ) + (natOfDigits fr : ℚ) / (10 : ℚ) ^ fr.length)
      else none
  | _ => none

/-- Trim leading and trailing whitespace from a character list
(`str.strip`, as applied by `pandas.to_numeric` to text input). -/
def trimChars (cs : List Char) : List Char :=
  ((cs.dropWhile Char.isWhitespace).reverse.dropWhile Char.isWhitespace).reverse

/-- Parse a signed decimal literal after trimming whitespace; `none` models a
coercion failure (`pandas.to_numeric(errors="coerce")`). -/
def parseDec (s : String) : Option ℚ :=
  match trimChars s.toList with
  | '-' :: cs => (parseUnsignedDec cs).map (fun q => -q)
  | '+' :: cs => parseUnsignedDec cs
  | cs => parseUnsignedDec cs

/-- `pd.to_numeric(x, errors="coerce")` on one cell: numbers pass through,
text is parsed (`none` on failure), missing stays missing. -/
def coerceCell : Cell → Option ℚ
  | .num q => some q
  | .text s => parseDec s
  | .missing => none

/-- Rebuild a cell from a coerced value (a coerced column stores floats and
`NaN`s only). -/
def recell : Option ℚ → Cell
  | some q => .num q
  | none => .missing

/-- The cell at row `i`, column index `j`. -/
def DF.cell (df : DF) (i j : ℕ) : Cell := (df.rows.getD i []).getD j .missing

/-- Column access `df[col]`: the cells of `col` in row order. -/
def getCol (df : DF) (col : String) : List Cell :=
  df.rows.map (fun r => r.getD (df.cols.indexOf col) .missing)

/-- `pd.to_numeric(df[col], errors="coerce")` (`_to_float_series`). -/
def coerceCol (df : DF) (col : String) : List (Option ℚ) :=
  (getCol df col).map coerceCell

/-- Replace column `col` of `df` with the given cells (row-aligned). -/
def DF.setCol (df : DF) (col : String) (vals : List Cell) : DF :=
  ⟨df.cols, List.zipWith (fun r v => r.set (df.cols.indexOf col) v) df.rows vals⟩

/-- `lo ≤ v ≤ hi`, a `none` bound meaning `-inf` / `+inf`
(`(x >= lo) & (x <= hi)` in `handle_numeric_outliers`). -/
def inRange (lo hi : Option ℚ) (v : ℚ) : Bool :=
  (match lo with | none => true | some l => decide (l ≤ v)) &&
  (match hi with | none => true | some h => decide (v ≤ h))

/-- The `valid_mask` of `handle_numeric_outliers` for one coerced cell:
non-missing and within the inclusive bounds. -/
def validCell (lo hi : Option ℚ) : Option ℚ → Bool
  | some v => inRange lo hi v
  | none => false

/-- The `affected` count: non-missing values outside the range. -/
def invalidCount (df : DF) (col : String) (lo hi : Option ℚ) : ℕ :=
  ((coerceCol df col).filter (fun x => x.isSome && !(validCell lo hi x))).length

/-- Arithmetic mean of a list of rationals (`Series.mean` on non-missing
values; callers guard against the empty list as the code does). -/
def listMean (l : List ℚ) : ℚ := l.sum / l.length

/-- Floor of a rational (numerator Euclidean-divided by the positive
denominator). -/
def ratFloor (q : ℚ) : ℤ := Int.ediv q.num (q.den : ℤ)

/-- Python `round`: round half to even (banker's rounding), as applied to the
imputed value when `round_to_int` is set. -/
def pyRound (q : ℚ) : ℤ :=
  let f := ratFloor q
  let r := q - f
  if r < 1 / 2 then f else if 1 / 2 < r then f + 1 else if f % 2 = 0 then f else f + 1

/-- The `valid_values` of the impute branch of `handle_numeric_outliers`:
the non-missing, in-range values of the coerced column. -/
def validValues (df : DF) (col : String) (lo hi : Option ℚ) : List ℚ :=
  (coerceCol df col).filterMap (fun x =>
    match x with
    | some v => if inRange lo hi v then some v else none
    | none => none)

/-- The `imputed_value` of the impute branch of `handle_numeric_outliers`:
the mean of the valid values, falling back to the midpoint of finite bounds
and to `0` otherwise, rounded half-to-even when `round_to_int` is set. -/
def imputedVal (df : DF) (col : String) (lo hi : Option ℚ) (round_to_int : Bool) : ℚ :=
  let vv := validValues df col lo hi
  let imputed0 : ℚ :=
    if vv.isEmpty then
      match lo, hi with
      | some l, some h => (l + h) / 2
      | _, _ => 0
    else listMean vv
  if round_to_int then (pyRound imputed0 : ℚ) else imputed0

/-- `handle_numeric_outliers(df, column, method, min_val, max_val,
round_to_int)` from `helpers.py`: clean one numeric column under a policy,
returning `(cleaned_df, affected_count, imputed_value_or_None)`.  Note that
the code's `out.loc[~valid_mask, column] = imputed_value` writes into every
row the `valid_mask` excludes — missing cells included. -/
def handle_numeric_outliers (df : DF) (column method : String)
    (min_val max_val : Option ℚ) (round_to_int : Bool) : DF × ℕ × Option ℚ :=
  if column ∉ df.cols then (df, 0, none)
  else
    let xs := coerceCol df column
    let out := df.setCol column (xs.map recell)
    let affected := invalidCount df column min_val max_val
    if affected = 0 then (out, 0, none)
    else if method = "leave" then (out, affected, none)
    else if method = "exclude" then
      (⟨df.cols, ((out.rows.zip xs).filter
          (fun p => validCell min_val max_val p.2 || p.2.isNone)).map Prod.fst⟩,
        affected, none)
    else
      let imputed := imputedVal df column min_val max_val round_to_int
      (df.setCol column (xs.map (fun x =>
          if validCell min_val max_val x then recell x else Cell.num imputed)),
        affected, some imputed)

/-! ### Duplicate-Value Detector (`detect_suspicious_duplicates`) -/

/-- Strip trailing `'0'` characters (`str.rstrip('0')`). -/
def dropTrailingZeros (cs : List Char) : List Char :=
  (cs.reverse.dropWhile (fun c => decide (c = '0'))).reverse

/-- The decimal digits of `n` left-padded with zeros to `w` characters, as
`%.10f` formatting produces for the fractional part. -/
def padDigits (n w : ℕ) : List Char :=
  let s := (Nat.toDigits 10 n)
  List.replicate (w - s.length) '0' ++ s

/-- The characters of Python's `f"{v:.10f}"`: sign, integer digits, a dot, and
exactly ten fractional digits (rounded half to even at the tenth place). -/
def formatChars10 (v : ℚ) : List Char :=
  let n : ℤ := pyRound (v * 10 ^ 10)
  let sign : List Char := if n < 0 then ['-'] else []
  sign ++ Nat.toDigits 10 (n.natAbs / 10 ^ 10) ++ '.' :: padDigits (n.natAbs % 10 ^ 10) 10

/-- `f"{val:.10f}".rstrip('0')` from `detect_suspicious_duplicates`. -/
def valStrChars (v : ℚ) : List Char := dropTrailingZeros (formatChars10 v)

/-- `len(val_str.split('.')[1])`: number of characters after the dot. -/
def decimalPlaces (v : ℚ) : ℕ :=
  (((valStrChars v).dropWhile (fun c => decide (c ≠ '.'))).drop 1).length

/-- `suspicious |= (values == val)`: mark every row holding `val`. -/
def orMask (acc : List Bool) (values : List (Option ℚ)) (val : ℚ) : List Bool :=
  List.zipWith (fun a x => a || decide (x = some val)) acc values

/-- `detect_suspicious_duplicates(df, column, min_occurrences,
precision_threshold)` from `helpers.py`: boolean mask of rows holding a
frequent value, with the precision inspection of the code (both of whose
branches apply the same mask). -/
def detect_suspicious_duplicates (df : DF) (column : String)
    (min_occurrences precision_threshold : ℕ) : List Bool :=
  if column ∉ df.cols then List.replicate df.rows.length false
  else
    let values := coerceCol df column
    let present := values.filterMap id
    let frequent := present.dedup.filter (fun v => decide (min_occurrences ≤ present.count v))
    frequent.foldl (fun acc val =>
      if '.' ∈ valStrChars val then
        if precision_threshold ≤ decimalPlaces val then
          orMask acc values val
        else
          orMask acc values val
      else acc)
      (List.replicate values.length false)

/-- The Duplicate-Value Detector as the spec's §4.2 and §9 words describe its
observable behaviour: flag exactly the rows whose non-missing value reaches the
frequency bar, ignoring precision (used as the refinement target of C9). -/
def detect_freq_only (df : DF) (column : String) (min_occurrences : ℕ) : List Bool :=
  if column ∉ df.cols then List.replicate df.rows.length false
  else
    let values := coerceCol df column
    let present := values.filterMap id
    values.map (fun x =>
      match x with
      | some v => decide (min_occurrences ≤ present.count v)
      | none => false)

/-! ### Category Deviation Scorer and Risk Aggregator -/

/-- `NaN`-propagating subtraction on coerced values. -/
def osub : Option ℚ → Option ℚ → Option ℚ
  | some a, some b => some (a - b)
  | _, _ => none

/-- `NaN`-propagating multiplication on coerced values. -/
def omul : Option ℚ → Option ℚ → Option ℚ
  | some a, some b => some (a * b)
  | _, _ => none

/-- `NaN`-propagating addition on coerced values. -/
def oadd : Option ℚ → Option ℚ → Option ℚ
  | some a, some b => some (a + b)
  | _, _ => none

/-- `NaN`-propagating division on coerced values. -/
def odiv : Option ℚ → Option ℚ → Option ℚ
  | some a, some b => some (a / b)
  | _, _ => none

/-- `Series.mean` with `skipna`: mean of the non-missing entries, `NaN` when
there are none. -/
def omean (l : List (Option ℚ)) : Option ℚ :=
  let p := l.filterMap id
  if p.isEmpty then none else some (listMean p)

/-- Population variance (`Series.std(ddof=0)` squared) of the non-missing
values of a group. -/
def popVar (l : List ℚ) : ℚ := (l.map (fun x => (x - listMean l) ^ 2)).sum / l.length

/-- `category_amount_zscores(df, category_col, amount_col)` from `helpers.py`.
`sq` is the floating-point square root used by `Series.std` (the code only ever
branches on whether the variance under the root is zero or undefined, so every
theorem below holds for an arbitrary `sq`).  Rows whose category is missing
fall outside every `groupby` group and score `NaN`; the degenerate branch
returns `(s - m) * 0.0`, which is `0` on numbers and `NaN` on `NaN`. -/
def category_amount_zscores (sq : ℚ → ℚ) (df : DF) (category_col amount_col : String) :
    List (Option ℚ) :=
  if amount_col ∉ df.cols ∨ category_col ∉ df.cols then
    List.replicate df.rows.length none
  else
    let cats := getCol df category_col
    let amts := coerceCol df amount_col
    (List.range df.rows.length).map (fun i =>
      match cats.getD i .missing with
      | .missing => none
      | k =>
        let grp := ((cats.zip amts).filter (fun p => decide (p.1 = k))).map Prod.snd
        let p := grp.filterMap id
        let m := omean grp
        if p.isEmpty ∨ popVar p = 0 then
          omul (osub (amts.getD i none) m) (some 0)
        else
          odiv (osub (amts.getD i none) m) (some (sq (popVar p))))

/-- The fixed numeric feature candidates (`NUMERIC_CANDIDATES`). -/
def NUMERIC_CANDIDATES : List String :=
  ["claim_amount", "policy_premium", "annual_income", "age", "tenure_months"]

/-- The categorical pivots tried by `flag_anomalies`. -/
def CAT_PIVOTS : List String := ["claim_type", "policy_type", "state", "region"]

/-- `isolation_forest_scores(df)` from `helpers.py`.  The fitted
`IsolationForest` is an external library call; its per-row
`decision_function` output is passed in as `decision` and the function embeds
the surrounding logic: the zero series when no candidate numeric column is
present, and the batch min-max normalization otherwise. -/
def isolation_forest_scores (df : DF) (decision : List ℚ) : List ℚ :=
  if (NUMERIC_CANDIDATES.filter (fun c => decide (c ∈ df.cols))).isEmpty then
    List.replicate df.rows.length 0
  else
    let dmax := decision.foldl max (decision.headD 0)
    let dmin := decision.foldl min (decision.headD 0)
    if dmax = dmin then List.replicate decision.length 0
    else decision.map (fun d => (dmax - d) / (dmax - dmin))

/-- The `anomaly_z` column of `flag_anomalies`: absolute category z-scores for
each present pivot, averaged row-wise with `skipna`; the scalar `0.0` when no
pivot column is present. -/
def anomalyZ (sq : ℚ → ℚ) (df : DF) : List (Option ℚ) :=
  let zcomps := (CAT_PIVOTS.filter (fun c => decide (c ∈ df.cols))).map
    (fun cat => (category_amount_zscores sq df cat "claim_amount").map (Option.map (fun q => |q|)))
  if zcomps.isEmpty then List.replicate df.rows.length (some 0)
  else (List.range df.rows.length).map (fun i => omean (zcomps.map (fun c => c.getD i none)))

/-- `Series.max()` with `skipna`: `NaN` when every entry is missing. -/
def seriesMax (l : List (Option ℚ)) : Option ℚ :=
  (l.filterMap id).foldl (fun acc x =>
    match acc with
    | none => some x
    | some m => some (max m x)) none

/-- Python's builtin `max(m, c)` where the first argument may be `NaN`
(`max(out["anomaly_z"].max(), 1.0)`): comparison with `NaN` is false, so a
`NaN` first argument wins. -/
def pyMaxQ : Option ℚ → ℚ → Option ℚ
  | none, _ => none
  | some m, c => some (if m < c then c else m)

/-- `s >= thr` where `s` may be `NaN` (false on `NaN`), as in the flag and
reason computations of `flag_anomalies`. -/
def zge : Option ℚ → ℚ → Bool
  | none, _ => false
  | some z, t => decide (t ≤ z)

/-- One row of the reason loop of `flag_anomalies`. -/
def reasonFor (s : ℚ) (z : Option ℚ) (score_threshold z_threshold : ℚ) : String :=
  let r := (if decide (score_threshold ≤ s) then ["IsolationForest outlier"] else []) ++
           (if zge z z_threshold then ["Category z-score high"] else [])
  if r.isEmpty then "—" else String.intercalate ", " r

/-- The scored table produced by `flag_anomalies`: the input table plus the
five derived columns, modelled as row-aligned lists. -/
structure Scored where
  base : DF
  anomaly_iforest : List ℚ
  anomaly_z : List (Option ℚ)
  risk_score : List (Option ℚ)
  risk_reason : List String
  flagged : List Bool
deriving DecidableEq

/-- `flag_anomalies(df, iforest_weight, zscore_weight, z_threshold,
score_threshold)` from `helpers.py` (with `sq` and `decision` standing for the
external floating square root and `IsolationForest` decision values). -/
def flag_anomalies (sq : ℚ → ℚ) (df : DF) (decision : List ℚ)
    (iforest_weight zscore_weight z_threshold score_threshold : ℚ) : Scored :=
  let n := df.rows.length
  let s := isolation_forest_scores df decision
  let az := anomalyZ sq df
  { base := df
    anomaly_iforest := s
    anomaly_z := az
    risk_score := (List.range n).map (fun i =>
      oadd (some (iforest_weight * s.getD i 0))
        (omul (some zscore_weight)
          (odiv (some ((az.getD i none).getD 0)) (pyMaxQ (seriesMax az) 1))))
    risk_reason := (List.range n).map (fun i =>
      reasonFor (s.getD i 0) (az.getD i none) score_threshold z_threshold)
    flagged := (List.range n).map (fun i =>
      decide (score_threshold ≤ s.getD i 0) || zge (az.getD i none) z_threshold) }

/-! ### Helper lemmas -/

theorem coerce_recell (x : Option ℚ) : coerceCell (recell x) = x := by
  cases x <;> rfl

theorem rangeMap_getD {α : Type} (n i : ℕ) (f : ℕ → α) (d : α) (h : i < n) :
    ((List.range n).map f).getD i d = f i := by
  rw [List.getD_eq_getElem?_getD, List.getElem?_map, List.getElem?_range h]
  rfl

theorem getD_set_self {α : Type} (l : List α) (n : ℕ) (a d : α) (h : n < l.length) :
    (l.set n a).getD n d = a := by
  induction l generalizing n with
  | nil => simp at h
  | cons b t ih =>
    cases n with
    | zero => rfl
    | succ m =>
      simp only [List.set, List.getD, List.length_cons] at *
      exact ih m (by omega)

theorem getD_set_ne {α : Type} (l : List α) (n m : ℕ) (a d : α) (h : n ≠ m) :
    (l.set n a).getD m d = l.getD m d := by
  induction l generalizing n m with
  | nil => simp [List.set]
  | cons b t ih =>
    cases n with
    | zero =>
      cases m with
      | zero => exact absurd rfl h
      | succ k => rfl
    | succ n' =>
      cases m with
      | zero => rfl
      | succ k =>
        simp only [List.set, List.getD]
        exact ih n' k (by omega)

theorem filter_length_add {α : Type} (p : α → Bool) (l : List α) :
    (l.filter p).length + (l.filter (fun a => !p a)).length = l.length := by
  induction l with
  | nil => rfl
  | cons a t ih =>
    by_cases h : p a = true
    · simp [List.filter, h, ← ih]; omega
    · have h' : p a = false := by simpa using h
      simp [List.filter, h', ← ih]; omega

theorem zip_filter_snd_length {α β : Type} (p : β → Bool) :
    ∀ (as : List α) (bs : List β), as.length = bs.length →
      ((as.zip bs).filter (fun x => p x.2)).length = (bs.filter p).length := by
  intro as
  induction as with
  | nil =>
    intro bs h
    cases bs with
    | nil => rfl
    | cons b t => simp at h
  | cons a t ih =>
    intro bs h
    cases bs with
    | nil => simp at h
    | cons b bt =>
      have h' : t.length = bt.length := by simpa using h
      have hz : List.zipWith Prod.mk t bt = t.zip bt := rfl
      simp only [List.zip_cons_cons, List.filter]
      cases p b
      · rw [hz]; exact ih bt h'
      · simp only [List.length_cons]; rw [hz, ih bt h']

theorem map_fst_zip_sublist {α β : Type} :
    ∀ (as : List α) (bs : List β), ((as.zip bs).map Prod.fst).Sublist as
  | [], _ => by simp
  | _ :: _, [] => by simp
  | a :: t, b :: bt => by
      simpa using (map_fst_zip_sublist t bt).cons₂ a

theorem map_fst_filter_zip_sublist {α β : Type} (q : α × β → Bool) (as : List α) (bs : List β) :
    (((as.zip bs).filter q).map Prod.fst).Sublist as :=
  (((List.filter_sublist _).map Prod.fst).trans (map_fst_zip_sublist as bs))

theorem getD_mem {α : Type} (l : List α) (i : ℕ) (d : α) (h : i < l.length) :
    l.getD i d ∈ l := by
  rw [List.getD_eq_getElem l d h]
  exact List.getElem_mem h

theorem map_getD {α β : Type} (l : List α) (f : α → β) (i : ℕ) (d : β) (d' : α)
    (h : i < l.length) : (l.map f).getD i d = f (l.getD i d') := by
  rw [List.getD_eq_getElem _ d (by simpa using h), List.getElem_map,
    List.getD_eq_getElem _ d' h]

theorem zipWith_getD {α β γ : Type} (f : α → β → γ) :
    ∀ (as : List α) (bs : List β) (i : ℕ) (da : α) (db : β) (dc : γ),
      i < as.length → i < bs.length →
      (List.zipWith f as bs).getD i dc = f (as.getD i da) (bs.getD i db) := by
  intro as
  induction as with
  | nil => intro bs i da db dc h; simp at h
  | cons a t ih =>
    intro bs i da db dc ha hb
    cases bs with
    | nil => simp at hb
    | cons b bt =>
      cases i with
      | zero => rfl
      | succ j =>
        simp only [List.zipWith, List.getD]
        exact ih bt j da db dc (by simpa using ha) (by simpa using hb)

theorem length_getCol (df : DF) (col : String) : (getCol df col).length = df.rows.length :=
  List.length_map ..

theorem length_coerceCol (df : DF) (col : String) :
    (coerceCol df col).length = df.rows.length := by
  unfold coerceCol
  rw [List.length_map, length_getCol]

theorem setCol_cols (df : DF) (col : String) (vals : List Cell) :
    (df.setCol col vals).cols = df.cols := rfl

theorem setCol_rows_length (df : DF) (col : String) (vals : List Cell)
    (h : vals.length = df.rows.length) :
    (df.setCol col vals).rows.length = df.rows.length := by
  unfold DF.setCol
  simp [h]

theorem setCol_WF (df : DF) (col : String) (vals : List Cell) (hwf : df.WF) :
    (df.setCol col vals).WF := by
  intro r hr
  unfold DF.setCol at hr
  simp only at hr
  rw [List.mem_iff_get] at hr
  obtain ⟨k, hk⟩ := hr
  rw [List.get_zipWith] at hk
  subst hk
  simp only [List.length_set]
  exact hwf _ (List.get_mem ..)

theorem indexOf_lt_of_mem {col : String} {cols : List String} (hc : col ∈ cols) :
    cols.indexOf col < cols.length := List.indexOf_lt_length.2 hc

theorem zipWithSet_map_getD {α : Type} (idx : ℕ) (d : α) :
    ∀ (rows : List (List α)) (cells : List α),
      rows.length = cells.length → (∀ r ∈ rows, idx < r.length) →
      (List.zipWith (fun r v => r.set idx v) rows cells).map
          (fun r => r.getD idx d) = cells := by
  intro rows
  induction rows with
  | nil =>
    intro cells h _
    cases cells with
    | nil => rfl
    | cons c t => simp at h
  | cons r rt ih =>
    intro cells h hlen
    cases cells with
    | nil => simp at h
    | cons c ct =>
      simp only [List.zipWith, List.map]
      rw [getD_set_self _ _ _ _ (hlen r (by simp)),
        ih ct (by simpa using h) (fun r' hr' => hlen r' (by simp [hr']))]

theorem getCol_setCol (df : DF) (col : String) (cells : List Cell)
    (hwf : df.WF) (hc : col ∈ df.cols) (hlen : cells.length = df.rows.length) :
    getCol (df.setCol col cells) col = cells := by
  unfold getCol DF.setCol
  simp only
  exact zipWithSet_map_getD _ _ _ _ (by omega)
    (fun r hr => (hwf r hr) ▸ indexOf_lt_of_mem hc)

theorem coerceCol_setCol_recell (df : DF) (col : String) (xs : List (Option ℚ))
    (hwf : df.WF) (hc : col ∈ df.cols) (hlen : xs.length = df.rows.length) :
    coerceCol (df.setCol col (xs.map recell)) col = xs := by
  unfold coerceCol
  rw [getCol_setCol df col (xs.map recell) hwf hc (by simpa using hlen),
    List.map_map]
  have h : coerceCell ∘ recell = id := funext coerce_recell
  rw [h, List.map_id]

theorem setCol_cell_eq (df : DF) (col : String) (vals : List Cell) (i : ℕ)
    (hwf : df.WF) (hc : col ∈ df.cols) (hlen : vals.length = df.rows.length)
    (hi : i < df.rows.length) :
    (df.setCol col vals).cell i (df.cols.indexOf col) = vals.getD i .missing := by
  unfold DF.cell DF.setCol
  simp only
  rw [zipWith_getD _ _ _ _ [] .missing _ hi (by omega)]
  exact getD_set_self _ _ _ _
    ((hwf _ (getD_mem _ _ _ hi)) ▸ indexOf_lt_of_mem hc)

theorem setCol_cell_ne (df : DF) (col : String) (vals : List Cell) (i j : ℕ)
    (hlen : vals.length = df.rows.length) (hi : i < df.rows.length)
    (hj : j ≠ df.cols.indexOf col) :
    (df.setCol col vals).cell i j = df.cell i j := by
  unfold DF.cell DF.setCol
  simp only
  rw [zipWith_getD _ _ _ _ [] .missing _ hi (by omega)]
  exact getD_set_ne _ _ _ _ _ (fun h => hj h.symm)

theorem cell_getCol (df : DF) (col : String) (i : ℕ) (hi : i < df.rows.length) :
    (getCol df col).getD i .missing = df.cell i (df.cols.indexOf col) := by
  unfold getCol DF.cell
  exact map_getD _ _ _ _ [] hi

theorem zip_getD {α β : Type} :
    ∀ (as : List α) (bs : List β) (i : ℕ) (da : α) (db : β), i < as.length → i < bs.length →
      (as.zip bs).getD i (da, db) = (as.getD i da, bs.getD i db) := by
  intro as
  induction as with
  | nil => intro bs i da db h; simp at h
  | cons a t ih =>
    intro bs i da db ha hb
    cases bs with
    | nil => simp at hb
    | cons b bt =>
      cases i with
      | zero => rfl
      | succ j =>
        simp only [List.zip_cons_cons, List.getD]
        exact ih bt j da db (by simpa using ha) (by simpa using hb)

theorem not_keep_eq_bad (lo hi : Option ℚ) (x : Option ℚ) :
    (!(validCell lo hi x || x.isNone)) = (x.isSome && !(validCell lo hi x)) := by
  cases x with
  | none => rfl
  | some v => simp [validCell]

/-- Branch lemmas for `handle_numeric_outliers`. -/
theorem handle_absent (df : DF) (column method : String) (lo hi : Option ℚ) (rnd : Bool)
    (hc : column ∉ df.cols) :
    handle_numeric_outliers df column method lo hi rnd = (df, 0, none) := by
  unfold handle_numeric_outliers
  rw [if_pos hc]

theorem handle_noop (df : DF) (column method : String) (lo hi : Option ℚ) (rnd : Bool)
    (hc : column ∈ df.cols) (h : invalidCount df column lo hi = 0) :
    handle_numeric_outliers df column method lo hi rnd
      = (df.setCol column ((coerceCol df column).map recell), 0, none) := by
  unfold handle_numeric_outliers
  rw [if_neg (not_not_intro hc), if_pos h]

theorem handle_leave (df : DF) (column : String) (lo hi : Option ℚ) (rnd : Bool)
    (hc : column ∈ df.cols) (h : invalidCount df column lo hi ≠ 0) :
    handle_numeric_outliers df column "leave" lo hi rnd
      = (df.setCol column ((coerceCol df column).map recell),
          invalidCount df column lo hi, none) := by
  unfold handle_numeric_outliers
  rw [if_neg (not_not_intro hc), if_neg h, if_pos rfl]

theorem handle_exclude (df : DF) (column : String) (lo hi : Option ℚ) (rnd : Bool)
    (hc : column ∈ df.cols) (h : invalidCount df column lo hi ≠ 0) :
    handle_numeric_outliers df column "exclude" lo hi rnd
      = (⟨df.cols, (((df.setCol column ((coerceCol df column).map recell)).rows.zip
            (coerceCol df column)).filter
            (fun p => validCell lo hi p.2 || p.2.isNone)).map Prod.fst⟩,
          invalidCount df column lo hi, none) := by
  unfold handle_numeric_outliers
  rw [if_neg (not_not_intro hc), if_neg h, if_neg (by decide), if_pos rfl]

theorem handle_impute (df : DF) (column method : String) (lo hi : Option ℚ) (rnd : Bool)
    (hc : column ∈ df.cols) (h : invalidCount df column lo hi ≠ 0)
    (hm1 : method ≠ "leave") (hm2 : method ≠ "exclude") :
    handle_numeric_outliers df column method lo hi rnd
      = (df.setCol column ((coerceCol df column).map (fun x =>
            if validCell lo hi x then recell x
            else Cell.num (imputedVal df column lo hi rnd))),
          invalidCount df column lo hi, some (imputedVal df column lo hi rnd)) := by
  unfold handle_numeric_outliers
  rw [if_neg (not_not_intro hc), if_neg h, if_neg hm1, if_neg hm2]

/-- The `col` column of the table kept by the exclude branch: exactly the
coerced values that pass the keep predicate, re-wrapped as cells. -/
theorem exclude_col_spec (idx : ℕ) (keep : Option ℚ → Bool) :
    ∀ (rows : List (List Cell)) (xs : List (Option ℚ)),
      rows.length = xs.length → (∀ r ∈ rows, idx < r.length) →
      ((((List.zipWith (fun r v => r.set idx v) rows (xs.map recell)).zip xs).filter
          (fun p => keep p.2)).map Prod.fst).map (fun r => r.getD idx Cell.missing)
        = (xs.filter keep).map recell := by
  intro rows
  induction rows with
  | nil =>
    intro xs h _
    cases xs with
    | nil => rfl
    | cons x t => simp at h
  | cons r rt ih =>
    intro xs h hlen
    cases xs with
    | nil => simp at h
    | cons x xt =>
      have h' : rt.length = xt.length := by simpa using h
      have hr : idx < r.length := hlen r (by simp)
      simp only [List.map, List.zipWith, List.zip_cons_cons, List.filter]
      cases hk : keep x with
      | false =>
        exact ih xt h' (fun r' hr' => hlen r' (by simp [hr']))
      | true =>
        simp only [List.map]
        rw [getD_set_self _ _ _ _ hr]
        have hz : List.zipWith Prod.mk
            (List.zipWith (fun r v => r.set idx v) rt (List.map recell xt)) xt
          = (List.zipWith (fun r v => r.set idx v) rt (List.map recell xt)).zip xt := rfl
        rw [hz, ih xt h' (fun r' hr' => hlen r' (by simp [hr']))]

theorem keep_of_not_bad (lo hi : Option ℚ) (x : Option ℚ)
    (h : ¬(x.isSome && !(validCell lo hi x)) = true) :
    validCell lo hi x = true ∨ x = none := by
  cases x with
  | none => exact Or.inr rfl
  | some v =>
    left
    cases hv : validCell lo hi (some v) with
    | true => rfl
    | false => exact absurd (by simp [hv]) h

theorem exclude_getCol (df : DF) (col : String) (lo hi : Option ℚ)
    (hwf : df.WF) (hc : col ∈ df.cols) :
    ((((df.setCol col ((coerceCol df col).map recell)).rows.zip (coerceCol df col)).filter
        (fun p => validCell lo hi p.2 || p.2.isNone)).map Prod.fst).map
        (fun r => r.getD (df.cols.indexOf col) Cell.missing)
      = ((coerceCol df col).filter (fun x => validCell lo hi x || x.isNone)).map recell := by
  have h := exclude_col_spec (df.cols.indexOf col)
    (fun x => validCell lo hi x || x.isNone) df.rows (coerceCol df col)
    (length_coerceCol df col).symm
    (fun r hr => (hwf r hr) ▸ indexOf_lt_of_mem hc)
  exact h

theorem exclude_coerceCol (df : DF) (col : String) (lo hi : Option ℚ)
    (hwf : df.WF) (hc : col ∈ df.cols) :
    coerceCol
        ⟨df.cols, (((df.setCol col ((coerceCol df col).map recell)).rows.zip
            (coerceCol df col)).filter
            (fun p => validCell lo hi p.2 || p.2.isNone)).map Prod.fst⟩ col
      = (coerceCol df col).filter (fun x => validCell lo hi x || x.isNone) := by
  show List.map coerceCell
      ((((((df.setCol col ((coerceCol df col).map recell)).rows.zip
          (coerceCol df col)).filter
          (fun p => validCell lo hi p.2 || p.2.isNone)).map Prod.fst)).map
        (fun r => r.getD (df.cols.indexOf col) Cell.missing))
    = (coerceCol df col).filter (fun x => validCell lo hi x || x.isNone)
  rw [exclude_getCol df col lo hi hwf hc, List.map_map]
  have h : coerceCell ∘ recell = id := funext coerce_recell
  rw [h, List.map_id]

/-- C2: for every rectangular table with the column present,
`clean(table, col, "exclude", [lo,hi])` reports `affected_count` equal to the
number of non-missing out-of-range values; keeps the column set; shrinks the
row count by exactly that number; leaves only in-range or missing values in
the column; preserves every missing value; and returns the surviving rows in
their original relative order (a sublist of the coerced table's rows). -/
theorem C2_clean_exclude_spec (df : DF) (col : String) (lo hi : Option ℚ) (rnd : Bool)
    (hwf : df.WF) (hc : col ∈ df.cols) :
    (handle_numeric_outliers df col "exclude" lo hi rnd).2.1 = invalidCount df col lo hi ∧
    (handle_numeric_outliers df col "exclude" lo hi rnd).1.cols = df.cols ∧
    (handle_numeric_outliers df col "exclude" lo hi rnd).1.rows.length
        + invalidCount df col lo hi = df.rows.length ∧
    (∀ x ∈ coerceCol (handle_numeric_outliers df col "exclude" lo hi rnd).1 col,
        validCell lo hi x = true ∨ x = none) ∧
    (coerceCol (handle_numeric_outliers df col "exclude" lo hi rnd).1 col).count none
        = (coerceCol df col).count none ∧
    (handle_numeric_outliers df col "exclude" lo hi rnd).1.rows.Sublist
        (df.setCol col ((coerceCol df col).map recell)).rows := by
  have hxslen := length_coerceCol df col
  by_cases hA : invalidCount df col lo hi = 0
  · rw [handle_noop df col "exclude" lo hi rnd hc hA]
    have hcc : coerceCol (df.setCol col ((coerceCol df col).map recell)) col
        = coerceCol df col := coerceCol_setCol_recell df col _ hwf hc hxslen
    have hbadnil : ∀ x ∈ coerceCol df col, ¬(x.isSome && !(validCell lo hi x)) = true :=
      List.filter_eq_nil.1 (List.length_eq_zero.1 hA)
    refine ⟨hA.symm, rfl, ?_, ?_, ?_, List.Sublist.refl _⟩
    · rw [hA, setCol_rows_length df col _ (by simpa using hxslen)]
      omega
    · intro x hx
      rw [hcc] at hx
      exact keep_of_not_bad lo hi x (hbadnil x hx)
    · rw [hcc]
  · rw [handle_exclude df col lo hi rnd hc hA]
    have hcc := exclude_coerceCol df col lo hi hwf hc
    have houtlen : (df.setCol col ((coerceCol df col).map recell)).rows.length
        = (coerceCol df col).length :=
      (setCol_rows_length df col _ (by simpa using hxslen)).trans hxslen.symm
    refine ⟨rfl, rfl, ?_, ?_, ?_, ?_⟩
    · show ((((df.setCol col ((coerceCol df col).map recell)).rows.zip
          (coerceCol df col)).filter
          (fun p => validCell lo hi p.2 || p.2.isNone)).map Prod.fst).length
          + invalidCount df col lo hi = df.rows.length
      rw [List.length_map,
        zip_filter_snd_length (fun x => validCell lo hi x || x.isNone) _ _ houtlen]
      unfold invalidCount
      rw [← List.filter_congr (fun x _ => not_keep_eq_bad lo hi x),
        filter_length_add (fun x => validCell lo hi x || x.isNone) (coerceCol df col)]
      exact hxslen
    · intro x hx
      rw [hcc] at hx
      have := (List.mem_filter.1 hx).2
      rcases Bool.or_eq_true_iff.1 this with h1 | h1
      · exact Or.inl h1
      · exact Or.inr (Option.isNone_iff_eq_none.1 h1)
    · rw [hcc]
      exact List.count_filter rfl
    · exact map_fst_filter_zip_sublist _ _ _

/-- A concrete three-row table (a valid age, an out-of-range age, a missing
age) used to exercise the cleaner on explicit input. -/
def dfC2 : DF := ⟨["age", "id"], [[.num 25, .num 1], [.num 200, .num 2], [.missing, .num 3]]⟩

/-- C2 witness: the exclude-policy theorem applied to `dfC2` with bounds
`[18, 90]`, its hypotheses discharged by evaluation. -/
theorem C2_clean_exclude_spec_witness :
    dfC2.WF ∧ "age" ∈ dfC2.cols ∧
    ((handle_numeric_outliers dfC2 "age" "exclude" (some 18) (some 90) true).2.1
        = invalidCount dfC2 "age" (some 18) (some 90) ∧
      (handle_numeric_outliers dfC2 "age" "exclude" (some 18) (some 90) true).1.cols
        = dfC2.cols ∧
      (handle_numeric_outliers dfC2 "age" "exclude" (some 18) (some 90) true).1.rows.length
          + invalidCount dfC2 "age" (some 18) (some 90) = dfC2.rows.length ∧
      (∀ x ∈ coerceCol (handle_numeric_outliers dfC2 "age" "exclude" (some 18) (some 90) true).1 "age",
          validCell (some 18) (some 90) x = true ∨ x = none) ∧
      (coerceCol (handle_numeric_outliers dfC2 "age" "exclude" (some 18) (some 90) true).1 "age").count none
          = (coerceCol dfC2 "age").count none ∧
      (handle_numeric_outliers dfC2 "age" "exclude" (some 18) (some 90) true).1.rows.Sublist
          (dfC2.setCol "age" ((coerceCol dfC2 "age").map recell)).rows) :=
  ⟨by decide, by decide,
    C2_clean_exclude_spec dfC2 "age" (some 18) (some 90) true (by decide) (by decide)⟩

/-- A one-row table whose `age` cell is unparseable text, showing that the
leave policy coerces the column it claims to leave untouched. -/
def dfC5 : DF := ⟨["age"], [[.text "abc"]]⟩

/-- C5 counterexample: `clean(table, col, "leave", ...)` is not a pure
identity on the data — the text cell `"abc"` of the cleaned column comes back
as a missing cell, so the returned table differs from the input. -/
theorem C5_clean_leave_counterexample :
    (handle_numeric_outliers dfC5 "age" "leave" (some 18) (some 90) true).1.rows
        = [[Cell.missing]] ∧
    (handle_numeric_outliers dfC5 "age" "leave" (some 18) (some 90) true).1 ≠ dfC5 := by
  decide

/-- C5 amended: `clean(table, col, "leave", ...)` keeps the column set, the
row count and every cell outside `col` unchanged and reports
`affected_count` with no imputed value, but the `col` column itself is
replaced by its numerically-coerced values (numeric cells keep their value,
unparseable text cells become missing), so it is an identity only up to
numeric coercion of `col`. -/
theorem C5_clean_leave_amended (df : DF) (col : String) (lo hi : Option ℚ) (rnd : Bool)
    (hwf : df.WF) (hc : col ∈ df.cols) (i j : ℕ) (hi' : i < df.rows.length) :
    (handle_numeric_outliers df col "leave" lo hi rnd).1.cols = df.cols ∧
    (handle_numeric_outliers df col "leave" lo hi rnd).1.rows.length = df.rows.length ∧
    (handle_numeric_outliers df col "leave" lo hi rnd).2.1 = invalidCount df col lo hi ∧
    (handle_numeric_outliers df col "leave" lo hi rnd).2.2 = none ∧
    (j ≠ df.cols.indexOf col →
      (handle_numeric_outliers df col "leave" lo hi rnd).1.cell i j = df.cell i j) ∧
    (handle_numeric_outliers df col "leave" lo hi rnd).1.cell i (df.cols.indexOf col)
      = recell (coerceCell (df.cell i (df.cols.indexOf col))) := by
  have hxslen := length_coerceCol df col
  have hout : (handle_numeric_outliers df col "leave" lo hi rnd).1
      = df.setCol col ((coerceCol df col).map recell) ∧
      (handle_numeric_outliers df col "leave" lo hi rnd).2.1 = invalidCount df col lo hi ∧
      (handle_numeric_outliers df col "leave" lo hi rnd).2.2 = none := by
    by_cases hA : invalidCount df col lo hi = 0
    · rw [handle_noop df col "leave" lo hi rnd hc hA]
      exact ⟨rfl, hA.symm, rfl⟩
    · rw [handle_leave df col lo hi rnd hc hA]
      exact ⟨rfl, rfl, rfl⟩
  obtain ⟨h1, h2, h3⟩ := hout
  rw [h1, h2, h3]
  refine ⟨rfl, setCol_rows_length df col _ (by simpa using hxslen), rfl, rfl, ?_, ?_⟩
  · intro hj
    exact setCol_cell_ne df col _ i j (by simpa using hxslen) hi' hj
  · rw [setCol_cell_eq df col _ i hwf hc (by simpa using hxslen) hi']
    rw [map_getD _ recell i Cell.missing none (by rw [hxslen]; exact hi')]
    have hx : coerceCol df col = (getCol df col).map coerceCell := rfl
    rw [hx, map_getD _ coerceCell i none Cell.missing (by rw [length_getCol]; exact hi'),
      cell_getCol df col i hi']

/-- C5 witness: the amended leave theorem applied to `dfC5` (row 0, a column
index other than the cleaned one), hypotheses discharged by evaluation. -/
theorem C5_clean_leave_amended_witness :
    dfC5.WF ∧ "age" ∈ dfC5.cols ∧ 0 < dfC5.rows.length ∧
    ((handle_numeric_outliers dfC5 "age" "leave" (some 18) (some 90) true).1.cols = dfC5.cols ∧
      (handle_numeric_outliers dfC5 "age" "leave" (some 18) (some 90) true).1.rows.length
        = dfC5.rows.length ∧
      (handle_numeric_outliers dfC5 "age" "leave" (some 18) (some 90) true).2.1
        = invalidCount dfC5 "age" (some 18) (some 90) ∧
      (handle_numeric_outliers dfC5 "age" "leave" (some 18) (some 90) true).2.2 = none ∧
      (1 ≠ dfC5.cols.indexOf "age" →
        (handle_numeric_outliers dfC5 "age" "leave" (some 18) (some 90) true).1.cell 0 1
          = dfC5.cell 0 1) ∧
      (handle_numeric_outliers dfC5 "age" "leave" (some 18) (some 90) true).1.cell 0
          (dfC5.cols.indexOf "age")
        = recell (coerceCell (dfC5.cell 0 (dfC5.cols.indexOf "age")))) :=
  ⟨by decide, by decide, by decide,
    C5_clean_leave_amended dfC5 "age" (some 18) (some 90) true
      (by decide) (by decide) 0 1 (by decide)⟩

/-- A three-row table (valid age, out-of-range age, missing age) on which
impute-mean overwrites the missing cell as well. -/
def dfC1 : DF := ⟨["age"], [[.num 30], [.num 200], [.missing]]⟩

/-- C1 counterexample: with bounds `[18, 90]` the value `200` is the only
affected cell and the imputed value is the mean `30` of the valid values, but
the missing cell of row 2 is also overwritten with `30` — the claim says
missing cells are never altered. -/
theorem C1_clean_impute_counterexample :
    dfC1.cell 2 0 = Cell.missing ∧
    (handle_numeric_outliers dfC1 "age" "impute_mean" (some 18) (some 90) true).2.1 = 1 ∧
    (handle_numeric_outliers dfC1 "age" "impute_mean" (some 18) (some 90) true).2.2
      = some 30 ∧
    (handle_numeric_outliers dfC1 "age" "impute_mean" (some 18) (some 90) true).1.cell 2 0
      = Cell.num 30 := by
  decide

/-- C1 amended: under impute-mean, `affected_count` counts exactly the
non-missing out-of-range cells, and when it is positive every cell the valid
mask excludes — out-of-range AND missing alike — is overwritten with the
single reported imputed value, while valid cells keep their coerced value;
when `affected_count = 0` the function short-circuits, reports no imputed
value, and only coerces the column (missing cells then stay missing). -/
theorem C1_clean_impute_amended (df : DF) (col : String) (lo hi : Option ℚ) (rnd : Bool)
    (hwf : df.WF) (hc : col ∈ df.cols) (i : ℕ) (hi' : i < df.rows.length) :
    (handle_numeric_outliers df col "impute_mean" lo hi rnd).2.1
        = invalidCount df col lo hi ∧
    (invalidCount df col lo hi = 0 →
      (handle_numeric_outliers df col "impute_mean" lo hi rnd).2.2 = none ∧
      (handle_numeric_outliers df col "impute_mean" lo hi rnd).1.cell i (df.cols.indexOf col)
        = recell (coerceCell (df.cell i (df.cols.indexOf col)))) ∧
    (invalidCount df col lo hi ≠ 0 →
      (handle_numeric_outliers df col "impute_mean" lo hi rnd).2.2
        = some (imputedVal df col lo hi rnd) ∧
      (validCell lo hi (coerceCell (df.cell i (df.cols.indexOf col))) = true →
        (handle_numeric_outliers df col "impute_mean" lo hi rnd).1.cell i (df.cols.indexOf col)
          = recell (coerceCell (df.cell i (df.cols.indexOf col)))) ∧
      (validCell lo hi (coerceCell (df.cell i (df.cols.indexOf col))) = false →
        (handle_numeric_outliers df col "impute_mean" lo hi rnd).1.cell i (df.cols.indexOf col)
          = Cell.num (imputedVal df col lo hi rnd))) := by
  have hxslen := length_coerceCol df col
  have hxi : (coerceCol df col).getD i none = coerceCell (df.cell i (df.cols.indexOf col)) := by
    have hx : coerceCol df col = (getCol df col).map coerceCell := rfl
    rw [hx, map_getD _ coerceCell i none Cell.missing (by rw [length_getCol]; exact hi'),
      cell_getCol df col i hi']
  refine ⟨?_, ?_, ?_⟩
  · by_cases hA : invalidCount df col lo hi = 0
    · rw [handle_noop df col "impute_mean" lo hi rnd hc hA]
      exact hA.symm
    · rw [handle_impute df col "impute_mean" lo hi rnd hc hA (by decide) (by decide)]
  · intro hA
    rw [handle_noop df col "impute_mean" lo hi rnd hc hA]
    refine ⟨rfl, ?_⟩
    rw [setCol_cell_eq df col _ i hwf hc (by simpa using hxslen) hi',
      map_getD _ recell i Cell.missing none (by rw [hxslen]; exact hi'), hxi]
  · intro hA
    rw [handle_impute df col "impute_mean" lo hi rnd hc hA (by decide) (by decide)]
    refine ⟨rfl, ?_, ?_⟩
    · intro hv
      rw [setCol_cell_eq df col _ i hwf hc (by simpa using hxslen) hi',
        map_getD _ _ i Cell.missing none (by rw [hxslen]; exact hi'), hxi, if_pos hv]
    · intro hv
      rw [setCol_cell_eq df col _ i hwf hc (by simpa using hxslen) hi',
        map_getD _ _ i Cell.missing none (by rw [hxslen]; exact hi'), hxi, if_neg (by rw [hv]; exact Bool.false_ne_true)]

/-- C1 witness: the amended impute theorem applied to `dfC1` at the
out-of-range row 1. -/
theorem C1_clean_impute_amended_witness :
    dfC1.WF ∧ "age" ∈ dfC1.cols ∧ 1 < dfC1.rows.length ∧
    ((handle_numeric_outliers dfC1 "age" "impute_mean" (some 18) (some 90) true).2.1
        = invalidCount dfC1 "age" (some 18) (some 90) ∧
      (invalidCount dfC1 "age" (some 18) (some 90) = 0 →
        (handle_numeric_outliers dfC1 "age" "impute_mean" (some 18) (some 90) true).2.2 = none ∧
        (handle_numeric_outliers dfC1 "age" "impute_mean" (some 18) (some 90) true).1.cell 1
            (dfC1.cols.indexOf "age")
          = recell (coerceCell (dfC1.cell 1 (dfC1.cols.indexOf "age")))) ∧
      (invalidCount dfC1 "age" (some 18) (some 90) ≠ 0 →
        (handle_numeric_outliers dfC1 "age" "impute_mean" (some 18) (some 90) true).2.2
          = some (imputedVal dfC1 "age" (some 18) (some 90) true) ∧
        (validCell (some 18) (some 90) (coerceCell (dfC1.cell 1 (dfC1.cols.indexOf "age"))) = true →
          (handle_numeric_outliers dfC1 "age" "impute_mean" (some 18) (some 90) true).1.cell 1
              (dfC1.cols.indexOf "age")
            = recell (coerceCell (dfC1.cell 1 (dfC1.cols.indexOf "age")))) ∧
        (validCell (some 18) (some 90) (coerceCell (dfC1.cell 1 (dfC1.cols.indexOf "age"))) = false →
          (handle_numeric_outliers dfC1 "age" "impute_mean" (some 18) (some 90) true).1.cell 1
              (dfC1.cols.indexOf "age")
            = Cell.num (imputedVal dfC1 "age" (some 18) (some 90) true)))) :=
  ⟨by decide, by decide, by decide,
    C1_clean_impute_amended dfC1 "age" (some 18) (some 90) true (by decide) (by decide) 1
      (by decide)⟩

theorem handle_count_zero (df : DF) (col method : String) (lo hi : Option ℚ) (rnd : Bool)
    (h : invalidCount df col lo hi = 0) :
    (handle_numeric_outliers df col method lo hi rnd).2.1 = 0 := by
  by_cases hc : col ∈ df.cols
  · rw [handle_noop df col method lo hi rnd hc h]
  · rw [handle_absent df col method lo hi rnd hc]

theorem invalidCount_noop (df : DF) (col : String) (lo' hi' : Option ℚ)
    (hwf : df.WF) (hc : col ∈ df.cols) :
    invalidCount (df.setCol col ((coerceCol df col).map recell)) col lo' hi'
      = invalidCount df col lo' hi' := by
  unfold invalidCount
  rw [coerceCol_setCol_recell df col _ hwf hc (length_coerceCol df col)]

/-- A one-row table with value `3` and the unbounded-below range `(-inf, -5]`:
the zero fallback of impute-mean lands outside the range, breaking
idempotence. -/
def dfC4 : DF := ⟨["age"], [[.num 3]]⟩

/-- C4 counterexample: cleaning `dfC4` with impute-mean and bounds
`(-inf, -5]` imputes the fallback `0`, which is itself out of range, so the
re-run reports `affected_count = 1`, not `0`. -/
theorem C4_clean_idempotent_counterexample :
    (handle_numeric_outliers dfC4 "age" "impute_mean" none (some (-5)) false).2.2
      = some 0 ∧
    (handle_numeric_outliers
        (handle_numeric_outliers dfC4 "age" "impute_mean" none (some (-5)) false).1
        "age" "impute_mean" none (some (-5)) false).2.1 = 1 := by
  decide

/-- C4 amended: re-running `clean` on its own output with the same bounds
yields `affected_count = 0` for the exclude policy always, and for
impute-mean whenever the first call reported no imputed value or the reported
imputed value lies within `[lo, hi]`; the midpoint/zero fallbacks and the
`round_to_int` rounding can place the imputed value outside the bounds, in
which case the re-run counts those cells as affected again. -/
theorem C4_clean_idempotent_amended (df : DF) (col : String) (lo hi : Option ℚ)
    (rnd : Bool) (hwf : df.WF) :
    (handle_numeric_outliers (handle_numeric_outliers df col "exclude" lo hi rnd).1
        col "exclude" lo hi rnd).2.1 = 0 ∧
    ((handle_numeric_outliers df col "impute_mean" lo hi rnd).2.2 = none →
      (handle_numeric_outliers (handle_numeric_outliers df col "impute_mean" lo hi rnd).1
          col "impute_mean" lo hi rnd).2.1 = 0) ∧
    (∀ w, (handle_numeric_outliers df col "impute_mean" lo hi rnd).2.2 = some w →
      inRange lo hi w = true →
      (handle_numeric_outliers (handle_numeric_outliers df col "impute_mean" lo hi rnd).1
          col "impute_mean" lo hi rnd).2.1 = 0) := by
  refine ⟨?_, ?_, ?_⟩
  · by_cases hc : col ∈ df.cols
    · by_cases hA : invalidCount df col lo hi = 0
      · rw [handle_noop df col "exclude" lo hi rnd hc hA]
        exact handle_count_zero _ _ _ _ _ _
          ((invalidCount_noop df col lo hi hwf hc).trans hA)
      · rw [handle_exclude df col lo hi rnd hc hA]
        apply handle_count_zero
        unfold invalidCount
        rw [exclude_coerceCol df col lo hi hwf hc]
        have hnil : ((coerceCol df col).filter
            (fun x => validCell lo hi x || x.isNone)).filter
            (fun x => x.isSome && !(validCell lo hi x)) = [] := by
          rw [List.filter_eq_nil]
          intro a ha
          have hk := (List.mem_filter.1 ha).2
          rw [← not_keep_eq_bad]
          simp [hk]
        rw [hnil]
        rfl
    · rw [handle_absent df col "exclude" lo hi rnd hc]
      show (handle_numeric_outliers df col "exclude" lo hi rnd).2.1 = 0
      rw [handle_absent df col "exclude" lo hi rnd hc]
  · intro h2
    by_cases hc : col ∈ df.cols
    · by_cases hA : invalidCount df col lo hi = 0
      · rw [handle_noop df col "impute_mean" lo hi rnd hc hA]
        exact handle_count_zero _ _ _ _ _ _
          ((invalidCount_noop df col lo hi hwf hc).trans hA)
      · exfalso
        rw [handle_impute df col "impute_mean" lo hi rnd hc hA (by decide) (by decide)] at h2
        exact Option.noConfusion h2
    · rw [handle_absent df col "impute_mean" lo hi rnd hc]
      show (handle_numeric_outliers df col "impute_mean" lo hi rnd).2.1 = 0
      rw [handle_absent df col "impute_mean" lo hi rnd hc]
  · intro w h2 hw
    by_cases hc : col ∈ df.cols
    · by_cases hA : invalidCount df col lo hi = 0
      · rw [handle_noop df col "impute_mean" lo hi rnd hc hA]
        exact handle_count_zero _ _ _ _ _ _
          ((invalidCount_noop df col lo hi hwf hc).trans hA)
      · rw [handle_impute df col "impute_mean" lo hi rnd hc hA (by decide) (by decide)] at h2 ⊢
        have hwv : imputedVal df col lo hi rnd = w := Option.some.inj h2
        apply handle_count_zero
        unfold invalidCount
        have hg : coerceCol (df.setCol col ((coerceCol df col).map (fun x =>
              if validCell lo hi x then recell x
              else Cell.num (imputedVal df col lo hi rnd)))) col
            = (coerceCol df col).map (coerceCell ∘ (fun x =>
              if validCell lo hi x then recell x
              else Cell.num (imputedVal df col lo hi rnd))) := by
          unfold coerceCol
          rw [getCol_setCol df col _ hwf hc (by simp [coerceCol, getCol])]
          rw [List.map_map]
        rw [hg, List.filter_map]
        rw [List.length_map]
        have hnil : (coerceCol df col).filter ((fun x => x.isSome && !(validCell lo hi x)) ∘
            (coerceCell ∘ (fun x =>
              if validCell lo hi x then recell x
              else Cell.num (imputedVal df col lo hi rnd)))) = [] := by
          rw [List.filter_eq_nil]
          intro a _
          simp only [Function.comp]
          cases hval : validCell lo hi a with
          | true =>
            rw [if_pos rfl, coerce_recell]
            simp [hval]
          | false =>
            rw [if_neg (fun h => Bool.false_ne_true h)]
            have hv : validCell lo hi (some (imputedVal df col lo hi rnd)) = true := by
              show inRange lo hi (imputedVal df col lo hi rnd) = true
              rw [hwv]; exact hw
            simp [coerceCell, hv]
        rw [hnil]
        rfl
    · rw [handle_absent df col "impute_mean" lo hi rnd hc]
      show (handle_numeric_outliers df col "impute_mean" lo hi rnd).2.1 = 0
      rw [handle_absent df col "impute_mean" lo hi rnd hc]

/-- C4 witness: the amended idempotence theorem applied to `dfC1`, whose
imputed value `30` lies within `[18, 90]`. -/
theorem C4_clean_idempotent_amended_witness :
    dfC1.WF ∧
    (handle_numeric_outliers dfC1 "age" "impute_mean" (some 18) (some 90) true).2.2
      = some 30 ∧
    inRange (some 18) (some 90) 30 = true ∧
    (handle_numeric_outliers (handle_numeric_outliers dfC1 "age" "exclude" (some 18) (some 90) true).1
        "age" "exclude" (some 18) (some 90) true).2.1 = 0 ∧
    (handle_numeric_outliers (handle_numeric_outliers dfC1 "age" "impute_mean" (some 18) (some 90) true).1
        "age" "impute_mean" (some 18) (some 90) true).2.1 = 0 :=
  ⟨by decide, by decide, by decide,
    (C4_clean_idempotent_amended dfC1 "age" (some 18) (some 90) true (by decide)).1,
    (C4_clean_idempotent_amended dfC1 "age" (some 18) (some 90) true (by decide)).2.2
      30 (by decide) (by decide)⟩

/-- A one-row table with the in-range age 50, fed inverted bounds. -/
def dfC6a : DF := ⟨["age"], [[.num 50]]⟩

/-- A two-row table fed an unknown policy name. -/
def dfC6b : DF := ⟨["age"], [[.num 30], [.num 200]]⟩

/-- C6 counterexample: the cleaner accepts the inverted range `[90, 18]` and
proceeds — it drops the age-50 row and reports it as affected, raising no
error (its type has no error outcome) — and an unknown policy name
`"bogus-policy"` is silently executed as impute-mean, producing the exact
impute-mean output instead of surfacing an error. -/
theorem C6_config_errors_counterexample :
    (handle_numeric_outliers dfC6a "age" "exclude" (some 90) (some 18) true).1.rows = [] ∧
    (handle_numeric_outliers dfC6a "age" "exclude" (some 90) (some 18) true).2.1 = 1 ∧
    handle_numeric_outliers dfC6b "age" "bogus-policy" (some 18) (some 90) true
      = handle_numeric_outliers dfC6b "age" "impute_mean" (some 18) (some 90) true ∧
    (handle_numeric_outliers dfC6b "age" "bogus-policy" (some 18) (some 90) true).1.rows
      = [[Cell.num 30], [Cell.num 30]] := by
  decide

/-- C6 amended: `handle_numeric_outliers` itself never rejects a
configuration: any policy name other than `"leave"` and `"exclude"` is
silently executed as impute-mean, and with min bound `l` strictly above max
bound `h` cleaning still runs, counting every non-missing value of the column
as affected (the app's sidebar shows an error message for `l ≥ h` but calls
the cleaner regardless). -/
theorem C6_config_errors_amended (df : DF) (col method : String) (lo hi : Option ℚ)
    (rnd : Bool) :
    (method ≠ "leave" → method ≠ "exclude" →
      handle_numeric_outliers df col method lo hi rnd
        = handle_numeric_outliers df col "impute_mean" lo hi rnd) ∧
    (∀ l h : ℚ, lo = some l → hi = some h → h < l → col ∈ df.cols →
      (handle_numeric_outliers df col method lo hi rnd).2.1
        = ((coerceCol df col).filter (fun x => x.isSome)).length) := by
  constructor
  · intro hm1 hm2
    by_cases hc : col ∈ df.cols
    · by_cases hA : invalidCount df col lo hi = 0
      · rw [handle_noop df col method lo hi rnd hc hA,
          handle_noop df col "impute_mean" lo hi rnd hc hA]
      · rw [handle_impute df col method lo hi rnd hc hA hm1 hm2,
          handle_impute df col "impute_mean" lo hi rnd hc hA (by decide) (by decide)]
    · rw [handle_absent df col method lo hi rnd hc,
        handle_absent df col "impute_mean" lo hi rnd hc]
  · intro l h hl hh hlh hc
    subst hl hh
    have hbad : ∀ x : Option ℚ, (x.isSome && !(validCell (some l) (some h) x)) = x.isSome := by
      intro x
      cases x with
      | none => rfl
      | some v =>
        have : validCell (some l) (some h) (some v) = false := by
          show inRange (some l) (some h) v = false
          unfold inRange
          by_cases h1 : l ≤ v
          · have h2 : ¬v ≤ h := by
              intro hvh
              exact absurd (le_trans h1 hvh) (not_le.2 hlh)
            simp [h1, h2]
          · simp [h1]
        simp [this]
    have hcount : invalidCount df col (some l) (some h)
        = ((coerceCol df col).filter (fun x => x.isSome)).length := by
      unfold invalidCount
      rw [List.filter_congr (fun x _ => hbad x)]
    by_cases hA : invalidCount df col (some l) (some h) = 0
    · rw [handle_noop df col method (some l) (some h) rnd hc hA]
      rw [← hcount, hA]
    · by_cases hm1 : method = "leave"
      · subst hm1
        rw [handle_leave df col (some l) (some h) rnd hc hA]
        exact hcount
      · by_cases hm2 : method = "exclude"
        · subst hm2
          rw [handle_exclude df col (some l) (some h) rnd hc hA]
          exact hcount
        · rw [handle_impute df col method (some l) (some h) rnd hc hA hm1 hm2]
          exact hcount

/-- C6 witness: the amended theorem applied to `dfC6b` with the unknown
policy name and to the inverted bounds `[90, 18]`. -/
theorem C6_config_errors_amended_witness :
    ("bogus-policy" : String) ≠ "leave" ∧ ("bogus-policy" : String) ≠ "exclude" ∧
    (18 : ℚ) < 90 ∧ "age" ∈ dfC6b.cols ∧
    handle_numeric_outliers dfC6b "age" "bogus-policy" (some 18) (some 90) true
      = handle_numeric_outliers dfC6b "age" "impute_mean" (some 18) (some 90) true ∧
    (handle_numeric_outliers dfC6b "age" "exclude" (some 90) (some 18) true).2.1
      = ((coerceCol dfC6b "age").filter (fun x => x.isSome)).length :=
  ⟨by decide, by decide, by decide, by decide,
    (C6_config_errors_amended dfC6b "age" "bogus-policy" (some 18) (some 90) true).1
      (by decide) (by decide),
    (C6_config_errors_amended dfC6b "age" "exclude" (some 90) (some 18) true).2
      90 18 rfl rfl (by decide) (by decide)⟩

/-! ### Duplicate-detector lemmas -/

theorem mem_dropWhile_of_neg {α : Type} (p : α → Bool) (a : α) (h : p a = false) :
    ∀ l : List α, a ∈ l → a ∈ l.dropWhile p := by
  intro l
  induction l with
  | nil => intro hm; exact absurd hm (List.not_mem_nil a)
  | cons b t ih =>
    intro hm
    cases hpb : p b with
    | true =>
      rw [List.dropWhile_cons_of_pos hpb]
      rcases List.mem_cons.1 hm with he | ht
      · subst he; rw [h] at hpb; exact absurd hpb Bool.false_ne_true
      · exact ih ht
    | false =>
      rw [List.dropWhile_cons_of_neg (by rw [hpb]; exact Bool.false_ne_true)]
      exact hm

theorem dot_mem_formatChars (v : ℚ) : '.' ∈ formatChars10 v := by
  unfold formatChars10
  simp

theorem dot_mem_valStr (v : ℚ) : '.' ∈ valStrChars v := by
  unfold valStrChars dropTrailingZeros
  exact List.mem_reverse.2
    (mem_dropWhile_of_neg _ '.' (by decide) _ (List.mem_reverse.2 (dot_mem_formatChars v)))

theorem orMask_map (g : Option ℚ → Bool) (v : ℚ) :
    ∀ values : List (Option ℚ),
      orMask (values.map g) values v = values.map (fun x => g x || decide (x = some v)) := by
  intro values
  induction values with
  | nil => rfl
  | cons x t ih =>
    unfold orMask at *
    simp only [List.map, List.zipWith]
    rw [ih]

theorem map_const_false (values : List (Option ℚ)) :
    values.map (fun _ => false) = List.replicate values.length false := by
  induction values with
  | nil => rfl
  | cons x t ih => simp [List.replicate, ih]

theorem foldl_orMask_eq_map_gen (values : List (Option ℚ)) :
    ∀ (fs : List ℚ) (g : Option ℚ → Bool),
      fs.foldl (fun a v => orMask a values v) (values.map g)
        = values.map (fun x => g x || fs.any (fun v => decide (x = some v))) := by
  intro fs
  induction fs with
  | nil =>
    intro g
    exact (List.map_congr_left (fun x _ => (Bool.or_false (g x)).symm))
  | cons v fs ih =>
    intro g
    simp only [List.foldl]
    rw [orMask_map g v values, ih (fun x => g x || decide (x = some v))]
    refine List.map_congr_left (fun x _ => ?_)
    rw [Bool.or_assoc, List.any_cons]

theorem foldl_orMask_eq_map (values : List (Option ℚ)) (fs : List ℚ) :
    fs.foldl (fun a v => orMask a values v) (List.replicate values.length false)
      = values.map (fun x => fs.any (fun v => decide (x = some v))) := by
  rw [← map_const_false values, foldl_orMask_eq_map_gen values fs (fun _ => false)]
  exact List.map_congr_left (fun x _ => Bool.false_or _)

theorem detect_foldl_eq_orMask (values : List (Option ℚ)) (p : ℕ) :
    ∀ (fs : List ℚ) (acc : List Bool),
      fs.foldl (fun acc val =>
        if '.' ∈ valStrChars val then
          if p ≤ decimalPlaces val then orMask acc values val
          else orMask acc values val
        else acc) acc
      = fs.foldl (fun a v => orMask a values v) acc := by
  intro fs
  induction fs with
  | nil => intro acc; rfl
  | cons v fs ih =>
    intro acc
    simp only [List.foldl]
    rw [if_pos (dot_mem_valStr v), ite_self]
    exact ih _

theorem any_frequent_none (values : List (Option ℚ)) (minocc : ℕ) :
    (((values.filterMap id).dedup.filter
        (fun v => decide (minocc ≤ (values.filterMap id).count v))).any
        (fun v => decide ((none : Option ℚ) = some v))) = false := by
  rw [List.any_eq_false]
  intro w _
  simp

theorem any_frequent_some (values : List (Option ℚ)) (minocc : ℕ) (v : ℚ)
    (hx : some v ∈ values) :
    (((values.filterMap id).dedup.filter
        (fun w => decide (minocc ≤ (values.filterMap id).count w))).any
        (fun w => decide (some v = some w)))
      = decide (minocc ≤ (values.filterMap id).count v) := by
  by_cases hcount : minocc ≤ (values.filterMap id).count v
  · rw [List.any_eq_true.2 ⟨v, by
      rw [List.mem_filter, List.mem_dedup]
      exact ⟨List.mem_filterMap.2 ⟨some v, hx, rfl⟩, decide_eq_true hcount⟩, by simp⟩]
    exact (decide_eq_true hcount).symm
  · rw [List.any_eq_false.2 ?_]
    · exact (decide_eq_false hcount).symm
    · intro w hw
      intro hvw
      have hwv : v = w := by simpa using of_decide_eq_true hvw
      subst hwv
      have := (List.mem_filter.1 hw).2
      exact hcount (of_decide_eq_true this)

theorem getD_replicate {α : Type} (a : α) : ∀ n i, (List.replicate n a).getD i a = a
  | 0, _ => rfl
  | _ + 1, 0 => rfl
  | n + 1, i + 1 => getD_replicate a n i

theorem coerceCol_absent (df : DF) (col : String) (hwf : df.WF) (hc : col ∉ df.cols)
    (i : ℕ) : (coerceCol df col).getD i none = none := by
  by_cases hi : i < df.rows.length
  · have hx : coerceCol df col = (getCol df col).map coerceCell := rfl
    rw [hx, map_getD _ coerceCell i none Cell.missing (by rw [length_getCol]; exact hi),
      cell_getCol df col i hi]
    unfold DF.cell
    have hlen : (df.rows.getD i []).length = df.cols.length := hwf _ (getD_mem _ _ _ hi)
    have hidx : df.cols.indexOf col = df.cols.length := List.indexOf_eq_length.2 hc
    rw [hidx, List.getD_eq_default _ _ (le_of_eq hlen)]
    rfl
  · rw [List.getD_eq_default]
    rw [length_coerceCol]
    omega

/-- C8: for every rectangular table, column, and `min_occurrences`, the
Duplicate-Value Detector returns a mask with one entry per row in row order,
marking a row exactly when its coerced value is non-missing and that value's
frequency among the column's non-missing values reaches `min_occurrences`
(whatever the precision threshold `p`); rows with missing values are never
flagged. -/
theorem C8_detect_duplicates_spec (df : DF) (col : String) (minocc p : ℕ)
    (hwf : df.WF) (i : ℕ) (hi : i < df.rows.length) :
    (detect_suspicious_duplicates df col minocc p).length = df.rows.length ∧
    (∀ v : ℚ, (coerceCol df col).getD i none = some v →
      (detect_suspicious_duplicates df col minocc p).getD i false
        = decide (minocc ≤ ((coerceCol df col).filterMap id).count v)) ∧
    ((coerceCol df col).getD i none = none →
      (detect_suspicious_duplicates df col minocc p).getD i false = false) := by
  by_cases hc : col ∈ df.cols
  · have hdet : detect_suspicious_duplicates df col minocc p
        = (coerceCol df col).map (fun x =>
            ((((coerceCol df col).filterMap id).dedup.filter
              (fun v => decide (minocc ≤ ((coerceCol df col).filterMap id).count v))).any
              (fun v => decide (x = some v)))) := by
      unfold detect_suspicious_duplicates
      rw [if_neg (not_not_intro hc)]
      simp only
      rw [detect_foldl_eq_orMask, foldl_orMask_eq_map]
    refine ⟨?_, ?_, ?_⟩
    · rw [hdet, List.length_map, length_coerceCol]
    · intro v hv
      rw [hdet, map_getD _ _ i false none (by rw [length_coerceCol]; exact hi), hv]
      exact any_frequent_some _ minocc v
        (hv ▸ getD_mem _ _ _ (by rw [length_coerceCol]; exact hi))
    · intro hv
      rw [hdet, map_getD _ _ i false none (by rw [length_coerceCol]; exact hi), hv]
      exact any_frequent_none _ minocc
  · have hdet : detect_suspicious_duplicates df col minocc p
        = List.replicate df.rows.length false := by
      unfold detect_suspicious_duplicates
      rw [if_pos hc]
    refine ⟨by rw [hdet, List.length_replicate], ?_, ?_⟩
    · intro v hv
      rw [coerceCol_absent df col hwf hc i] at hv
      exact Option.noConfusion hv
    · intro _
      rw [hdet]
      exact getD_replicate false df.rows.length i

/-- A four-row income table: a high-precision value repeated twice, a
singleton value, and a missing cell. -/
def dfC8 : DF :=
  ⟨["annual_income"],
    [[.num (123456789 / 10000)], [.num (123456789 / 10000)], [.num 5], [.missing]]⟩

/-- C8 witness: the detector theorem applied to `dfC8` at row 0 with
`min_occurrences = 2`. -/
theorem C8_detect_duplicates_spec_witness :
    dfC8.WF ∧ 0 < dfC8.rows.length ∧
    ((detect_suspicious_duplicates dfC8 "annual_income" 2 4).length = dfC8.rows.length ∧
      (∀ v : ℚ, (coerceCol dfC8 "annual_income").getD 0 none = some v →
        (detect_suspicious_duplicates dfC8 "annual_income" 2 4).getD 0 false
          = decide (2 ≤ ((coerceCol dfC8 "annual_income").filterMap id).count v)) ∧
      ((coerceCol dfC8 "annual_income").getD 0 none = none →
        (detect_suspicious_duplicates dfC8 "annual_income" 2 4).getD 0 false = false)) :=
  ⟨by decide, by decide,
    C8_detect_duplicates_spec dfC8 "annual_income" 2 4 (by decide) 0 (by decide)⟩

/-- C9: the detector's output is observationally independent of
`precision_threshold` — any two thresholds give the same mask — and the
detector is extensionally equal to the frequency-only detector written from
the spec's words, which ignores precision entirely (both precision branches
of the code apply the same mask). -/
theorem C9_detect_precision_refinement (df : DF) (col : String) (minocc p1 p2 : ℕ) :
    detect_suspicious_duplicates df col minocc p1
      = detect_suspicious_duplicates df col minocc p2 ∧
    detect_suspicious_duplicates df col minocc p1 = detect_freq_only df col minocc := by
  have key : ∀ p, detect_suspicious_duplicates df col minocc p
      = detect_freq_only df col minocc := by
    intro p
    unfold detect_suspicious_duplicates detect_freq_only
    by_cases hc : col ∈ df.cols
    · rw [if_neg (not_not_intro hc), if_neg (not_not_intro hc)]
      simp only
      rw [detect_foldl_eq_orMask, foldl_orMask_eq_map]
      refine List.map_congr_left (fun x hx => ?_)
      cases x with
      | some v => exact any_frequent_some _ minocc v hx
      | none => exact any_frequent_none _ minocc
    · rw [if_pos hc, if_pos hc]
  exact ⟨(key p1).trans (key p2).symm, key p1⟩

/-! ### Category Deviation Scorer claims -/

/-- A one-row table whose single `claim_type` partition member has a missing
amount: the degenerate branch returns `NaN`, not `0`, for it. -/
def dfC10 : DF := ⟨["claim_type", "claim_amount"], [[.text "a", .missing]]⟩

/-- A two-row table forming one zero-variance `claim_type` partition. -/
def dfC10b : DF :=
  ⟨["claim_type", "claim_amount"], [[.text "a", .num 7], [.text "a", .num 7]]⟩

/-- A table with no candidate category column (only `age`). -/
def dfNoCat : DF := ⟨["age"], [[.num 5]]⟩

/-- C10 counterexample: in `dfC10` the single-member partition `"a"` is
degenerate (its standard deviation is undefined), yet its member's deviation
is missing (`NaN` from `(s - m) * 0.0` on a missing amount), not the claimed
exact `0`. -/
theorem C10_category_deviation_counterexample :
    category_amount_zscores (fun q => q) dfC10 "claim_type" "claim_amount" = [none] ∧
    category_amount_zscores (fun q => q) dfC10 "claim_type" "claim_amount"
      ≠ [some 0] := by
  decide

/-- C10 amended: in a degenerate partition (zero population variance of the
non-missing amounts, which covers zero standard deviation and single-member
groups; an undefined standard deviation can only occur when every member
amount is missing) each member whose amount is non-missing gets deviation
exactly `0`; members with a missing amount get a missing deviation; and when
no candidate category column is present, `flag_anomalies` gives every row the
deviation `0`. -/
theorem C10_category_deviation_amended (sq : ℚ → ℚ) (df : DF) (cat amt : String)
    (i : ℕ) (v : ℚ) (dec : List ℚ) (w1 w2 zt st : ℚ) :
    (cat ∈ df.cols → amt ∈ df.cols → i < df.rows.length →
      (getCol df cat).getD i .missing ≠ .missing →
      (coerceCol df amt).getD i none = some v →
      popVar (((((getCol df cat).zip (coerceCol df amt)).filter
          (fun p => decide (p.1 = (getCol df cat).getD i .missing))).map
          Prod.snd).filterMap id) = 0 →
      (category_amount_zscores sq df cat amt).getD i none = some 0) ∧
    ((∀ c ∈ CAT_PIVOTS, c ∉ df.cols) →
      (flag_anomalies sq df dec w1 w2 zt st).anomaly_z
        = List.replicate df.rows.length (some 0)) := by
  constructor
  · intro hcat hamt hi hk hv hvar
    unfold category_amount_zscores
    rw [if_neg (by push_neg; exact ⟨hamt, hcat⟩)]
    rw [rangeMap_getD _ i _ none hi]
    have hczip : ((getCol df cat).zip (coerceCol df amt)).getD i (Cell.missing, none)
        = ((getCol df cat).getD i Cell.missing, (coerceCol df amt).getD i none) :=
      zip_getD _ _ i Cell.missing none (by rw [length_getCol]; exact hi)
        (by rw [length_coerceCol]; exact hi)
    have hzlen : ((getCol df cat).zip (coerceCol df amt)).length = df.rows.length := by
      rw [List.length_zip, length_getCol, length_coerceCol, min_self]
    cases hcell : (getCol df cat).getD i Cell.missing with
    | missing => exact absurd hcell hk
    | num q =>
      rw [hcell, hv] at hczip
      rw [hcell] at hvar
      have hpair : (Cell.num q, some v) ∈ (getCol df cat).zip (coerceCol df amt) :=
        hczip ▸ getD_mem _ i (Cell.missing, none) (by rw [hzlen]; exact hi)
      have hgrp : some v ∈ ((((getCol df cat).zip (coerceCol df amt)).filter
          (fun p => decide (p.1 = Cell.num q))).map Prod.snd) :=
        List.mem_map.2 ⟨(Cell.num q, some v), List.mem_filter.2 ⟨hpair, by simp⟩, rfl⟩
      have hvp : v ∈ (((((getCol df cat).zip (coerceCol df amt)).filter
          (fun p => decide (p.1 = Cell.num q))).map Prod.snd).filterMap id) :=
        List.mem_filterMap.2 ⟨some v, hgrp, rfl⟩
      dsimp only
      rw [if_pos (Or.inr hvar), hv]
      unfold omean
      rw [if_neg (by
        intro hempty
        rw [List.isEmpty_iff] at hempty
        rw [hempty] at hvp
        exact absurd hvp (List.not_mem_nil v))]
      show some ((v - _) * 0) = some 0
      rw [mul_zero]
    | text s =>
      rw [hcell, hv] at hczip
      rw [hcell] at hvar
      have hpair : (Cell.text s, some v) ∈ (getCol df cat).zip (coerceCol df amt) :=
        hczip ▸ getD_mem _ i (Cell.missing, none) (by rw [hzlen]; exact hi)
      have hgrp : some v ∈ ((((getCol df cat).zip (coerceCol df amt)).filter
          (fun p => decide (p.1 = Cell.text s))).map Prod.snd) :=
        List.mem_map.2 ⟨(Cell.text s, some v), List.mem_filter.2 ⟨hpair, by simp⟩, rfl⟩
      have hvp : v ∈ (((((getCol df cat).zip (coerceCol df amt)).filter
          (fun p => decide (p.1 = Cell.text s))).map Prod.snd).filterMap id) :=
        List.mem_filterMap.2 ⟨some v, hgrp, rfl⟩
      dsimp only
      rw [if_pos (Or.inr hvar), hv]
      unfold omean
      rw [if_neg (by
        intro hempty
        rw [List.isEmpty_iff] at hempty
        rw [hempty] at hvp
        exact absurd hvp (List.not_mem_nil v))]
      show some ((v - _) * 0) = some 0
      rw [mul_zero]
  · intro hnone
    show anomalyZ sq df = List.replicate df.rows.length (some 0)
    unfold anomalyZ
    have hfilter : CAT_PIVOTS.filter (fun c => decide (c ∈ df.cols)) = [] := by
      rw [List.filter_eq_nil]
      intro c hcmem
      simp [hnone c hcmem]
    rw [hfilter]
    rfl

/-- C10 witness: the amended theorem applied to the zero-variance partition
of `dfC10b` (row 0, amount 7) and to the category-free table `dfNoCat`. -/
theorem C10_category_deviation_amended_witness :
    "claim_type" ∈ dfC10b.cols ∧ "claim_amount" ∈ dfC10b.cols ∧ 0 < dfC10b.rows.length ∧
    (getCol dfC10b "claim_type").getD 0 .missing ≠ .missing ∧
    (coerceCol dfC10b "claim_amount").getD 0 none = some 7 ∧
    popVar (((((getCol dfC10b "claim_type").zip (coerceCol dfC10b "claim_amount")).filter
        (fun p => decide (p.1 = (getCol dfC10b "claim_type").getD 0 .missing))).map
        Prod.snd).filterMap id) = 0 ∧
    (category_amount_zscores (fun q => q) dfC10b "claim_type" "claim_amount").getD 0 none
      = some 0 ∧
    (∀ c ∈ CAT_PIVOTS, c ∉ dfNoCat.cols) ∧
    (flag_anomalies (fun q => q) dfNoCat [0] (6 / 10) (4 / 10) (5 / 2) (13 / 20)).anomaly_z
      = List.replicate dfNoCat.rows.length (some 0) :=
  ⟨by decide, by decide, by decide, by decide, by decide, by decide,
    (C10_category_deviation_amended (fun q => q) dfC10b "claim_type" "claim_amount"
        0 7 [0] (6 / 10) (4 / 10) (5 / 2) (13 / 20)).1
      (by decide) (by decide) (by decide) (by decide) (by decide) (by decide),
    by decide,
    (C10_category_deviation_amended (fun q => q) dfNoCat "claim_type" "claim_amount"
        0 7 [0] (6 / 10) (4 / 10) (5 / 2) (13 / 20)).2 (by decide)⟩

/-! ### Risk Aggregator claims -/

/-- C3: in the scored table, each row's `flagged` is boolean-equal to
`(outlier_score ≥ score_threshold) OR (raw deviation ≥ z_threshold)` — the
deviation compared raw, not batch-normalized — `risk_reason` is the empty
marker `"—"` exactly when `flagged` is false, and when flagged it is the
`", "`-joined concatenation of `"IsolationForest outlier"` and
`"Category z-score high"` for whichever conditions trigger. -/
theorem C3_flag_reason_spec (sq : ℚ → ℚ) (df : DF) (dec : List ℚ)
    (w1 w2 zthr sthr : ℚ) (i : ℕ) (hi : i < df.rows.length) :
    (flag_anomalies sq df dec w1 w2 zthr sthr).flagged.getD i false
      = (decide (sthr ≤ (flag_anomalies sq df dec w1 w2 zthr sthr).anomaly_iforest.getD i 0)
        || zge ((flag_anomalies sq df dec w1 w2 zthr sthr).anomaly_z.getD i none) zthr) ∧
    ((flag_anomalies sq df dec w1 w2 zthr sthr).risk_reason.getD i "" = "—"
      ↔ (flag_anomalies sq df dec w1 w2 zthr sthr).flagged.getD i false = false) ∧
    (flag_anomalies sq df dec w1 w2 zthr sthr).risk_reason.getD i ""
      = (if (decide (sthr ≤ (flag_anomalies sq df dec w1 w2 zthr sthr).anomaly_iforest.getD i 0)
            && zge ((flag_anomalies sq df dec w1 w2 zthr sthr).anomaly_z.getD i none) zthr)
          then "IsolationForest outlier, Category z-score high"
          else if decide (sthr ≤ (flag_anomalies sq df dec w1 w2 zthr sthr).anomaly_iforest.getD i 0)
          then "IsolationForest outlier"
          else if zge ((flag_anomalies sq df dec w1 w2 zthr sthr).anomaly_z.getD i none) zthr
          then "Category z-score high"
          else "—") := by
  have hif : (flag_anomalies sq df dec w1 w2 zthr sthr).anomaly_iforest
      = isolation_forest_scores df dec := rfl
  have haz : (flag_anomalies sq df dec w1 w2 zthr sthr).anomaly_z = anomalyZ sq df := rfl
  have hfl : (flag_anomalies sq df dec w1 w2 zthr sthr).flagged
      = (List.range df.rows.length).map (fun j =>
          decide (sthr ≤ (isolation_forest_scores df dec).getD j 0)
          || zge ((anomalyZ sq df).getD j none) zthr) := rfl
  have hrs : (flag_anomalies sq df dec w1 w2 zthr sthr).risk_reason
      = (List.range df.rows.length).map (fun j =>
          reasonFor ((isolation_forest_scores df dec).getD j 0)
            ((anomalyZ sq df).getD j none) sthr zthr) := rfl
  rw [hif, haz, hfl, hrs, rangeMap_getD _ i _ false hi, rangeMap_getD _ i _ "" hi]
  refine ⟨rfl, ?_, ?_⟩
  · unfold reasonFor
    cases hA : decide (sthr ≤ (isolation_forest_scores df dec).getD i 0) <;>
      cases hB : zge ((anomalyZ sq df).getD i none) zthr <;> decide
  · unfold reasonFor
    cases hA : decide (sthr ≤ (isolation_forest_scores df dec).getD i 0) <;>
      cases hB : zge ((anomalyZ sq df).getD i none) zthr <;> decide

/-- C3 witness: the flag-and-reason theorem applied to the one-row table
`dfNoCat` with the default weights and thresholds. -/
theorem C3_flag_reason_spec_witness :
    0 < dfNoCat.rows.length ∧
    ((flag_anomalies (fun q => q) dfNoCat [0] (6 / 10) (4 / 10) (5 / 2) (13 / 20)).flagged.getD 0 false
      = (decide ((13 / 20 : ℚ) ≤ (flag_anomalies (fun q => q) dfNoCat [0] (6 / 10) (4 / 10) (5 / 2) (13 / 20)).anomaly_iforest.getD 0 0)
        || zge ((flag_anomalies (fun q => q) dfNoCat [0] (6 / 10) (4 / 10) (5 / 2) (13 / 20)).anomaly_z.getD 0 none) (5 / 2)) ∧
    ((flag_anomalies (fun q => q) dfNoCat [0] (6 / 10) (4 / 10) (5 / 2) (13 / 20)).risk_reason.getD 0 "" = "—"
      ↔ (flag_anomalies (fun q => q) dfNoCat [0] (6 / 10) (4 / 10) (5 / 2) (13 / 20)).flagged.getD 0 false = false) ∧
    (flag_anomalies (fun q => q) dfNoCat [0] (6 / 10) (4 / 10) (5 / 2) (13 / 20)).risk_reason.getD 0 ""
      = (if (decide ((13 / 20 : ℚ) ≤ (flag_anomalies (fun q => q) dfNoCat [0] (6 / 10) (4 / 10) (5 / 2) (13 / 20)).anomaly_iforest.getD 0 0)
            && zge ((flag_anomalies (fun q => q) dfNoCat [0] (6 / 10) (4 / 10) (5 / 2) (13 / 20)).anomaly_z.getD 0 none) (5 / 2))
          then "IsolationForest outlier, Category z-score high"
          else if decide ((13 / 20 : ℚ) ≤ (flag_anomalies (fun q => q) dfNoCat [0] (6 / 10) (4 / 10) (5 / 2) (13 / 20)).anomaly_iforest.getD 0 0)
          then "IsolationForest outlier"
          else if zge ((flag_anomalies (fun q => q) dfNoCat [0] (6 / 10) (4 / 10) (5 / 2) (13 / 20)).anomaly_z.getD 0 none) (5 / 2)
          then "Category z-score high"
          else "—")) :=
  ⟨by decide,
    C3_flag_reason_spec (fun q => q) dfNoCat [0] (6 / 10) (4 / 10) (5 / 2) (13 / 20) 0
      (by decide)⟩

/-- C7: each row's `risk_score` equals
`iforest_weight * outlier_score + zscore_weight * (deviation / divisor)`,
where the deviation (missing read as `0`, as the code's `fillna(0.0)` does) is
divided by the batch maximum `m` of the deviation column with divisor `1`
when `m < 1`, while the outlier score enters unnormalized. -/
theorem C7_risk_score_formula (sq : ℚ → ℚ) (df : DF) (dec : List ℚ)
    (w1 w2 zthr sthr : ℚ) (i : ℕ) (m : ℚ) (hi : i < df.rows.length)
    (hm : seriesMax ((flag_anomalies sq df dec w1 w2 zthr sthr).anomaly_z) = some m) :
    (flag_anomalies sq df dec w1 w2 zthr sthr).risk_score.getD i none
      = some (w1 * (flag_anomalies sq df dec w1 w2 zthr sthr).anomaly_iforest.getD i 0
          + w2 * ((((flag_anomalies sq df dec w1 w2 zthr sthr).anomaly_z.getD i none).getD 0)
              / (if m < 1 then 1 else m))) := by
  have hif : (flag_anomalies sq df dec w1 w2 zthr sthr).anomaly_iforest
      = isolation_forest_scores df dec := rfl
  have haz : (flag_anomalies sq df dec w1 w2 zthr sthr).anomaly_z = anomalyZ sq df := rfl
  have hrisk : (flag_anomalies sq df dec w1 w2 zthr sthr).risk_score
      = (List.range df.rows.length).map (fun j =>
          oadd (some (w1 * (isolation_forest_scores df dec).getD j 0))
            (omul (some w2)
              (odiv (some (((anomalyZ sq df).getD j none).getD 0))
                (pyMaxQ (seriesMax (anomalyZ sq df)) 1)))) := rfl
  rw [haz] at hm
  rw [hif, haz, hrisk, rangeMap_getD _ i _ none hi, hm]
  rfl

/-- C7 witness: the risk-score formula theorem applied to `dfNoCat`, whose
deviation column is all zeros so its batch maximum is `0`. -/
theorem C7_risk_score_formula_witness :
    0 < dfNoCat.rows.length ∧
    seriesMax ((flag_anomalies (fun q => q) dfNoCat [0] (6 / 10) (4 / 10) (5 / 2) (13 / 20)).anomaly_z)
      = some 0 ∧
    (flag_anomalies (fun q => q) dfNoCat [0] (6 / 10) (4 / 10) (5 / 2) (13 / 20)).risk_score.getD 0 none
      = some ((6 / 10) * (flag_anomalies (fun q => q) dfNoCat [0] (6 / 10) (4 / 10) (5 / 2) (13 / 20)).anomaly_iforest.getD 0 0
          + (4 / 10) * ((((flag_anomalies (fun q => q) dfNoCat [0] (6 / 10) (4 / 10) (5 / 2) (13 / 20)).anomaly_z.getD 0 none).getD 0)
              / (if (0 : ℚ) < 1 then 1 else 0))) :=
  ⟨by decide, by decide,
    C7_risk_score_formula (fun q => q) dfNoCat [0] (6 / 10) (4 / 10) (5 / 2) (13 / 20) 0 0
      (by decide) (by decide)⟩

end ClaimsRisk
